import Mathlib

/-!
Shallow embedding of the signalk-to-timestream plugin (src/index.js,
src/parse_timestream.js) for checking the natural-language specification.

Modelling conventions:
* JavaScript runtime values are modelled by `JsValue`.  Numbers are modelled
  as integers (`Int`): every numeric value appearing in the claims is an
  integer, and no claim depends on non-integral floating point behaviour.
  `null` is not modelled (it never appears in the code paths under study).
* A JavaScript object used as a map (the batch `name -> point`) is modelled
  as an association list with JavaScript assignment semantics: assigning to
  an existing string key keeps its position, a fresh key is appended
  (insertion order, as `Object.values` enumerates it).
* Code that can throw a `TypeError` (property access on `undefined`) is
  modelled in `Except String`.
-/

/-- Model of a JavaScript runtime value as it flows through the plugin. -/
inductive JsValue where
  | str (s : String)
  | num (n : Int)
  | bool (b : Bool)
  | obj (fields : List (String × JsValue))
  | undefined

/-- Model of lodash `_.isUndefined`. -/
def JsValue.is_undefined : JsValue → Bool
  | .undefined => true
  | _ => false

/-- Model of the JavaScript `typeof` operator on the modelled values.
Note that `typeof` yields the string "boolean" (never "bool") for booleans. -/
def js_typeof : JsValue → String
  | .str _ => "string"
  | .num _ => "number"
  | .bool _ => "boolean"
  | .obj _ => "object"
  | .undefined => "undefined"

/-- Model of JavaScript template-literal stringification of a value,
as used for `MeasureValue` and `Time` in the publish path. -/
def jsToString : JsValue → String
  | .str s => s
  | .num n => toString n
  | .bool b => if b then "true" else "false"
  | .obj _ => "[object Object]"
  | .undefined => "undefined"

/-- A data point as accumulated in the batch: from src/index.js
`_add_delta_to_batch`, the object `{ name, value, timestamp }` with the
timestamp already parsed to epoch milliseconds. -/
structure DataPoint where
  name : String
  value : JsValue
  timestamp : Int

/-- One `(path, value)` entry of an incoming bus update. -/
structure SkPathValue where
  path : String
  value : JsValue

/-- One incoming update: `{ timestamp, values }`; `values` may be absent
(the code tests `!update.values`). -/
structure SkUpdate where
  timestamp : String
  values : Option (List SkPathValue)

/-- An incoming delta: `{ context, updates }`; `updates` may be absent. -/
structure SkDelta where
  context : String
  updates : Option (List SkUpdate)

/-- The configuration fields consumed by `_construct_filter_function`. -/
structure PluginOptions where
  filter_list : List String
  filter_list_type : String

/-- Matching semantics of the regex compiled in `_construct_filter_function`:
the glob is turned into a regex by escaping `.`, turning `*` into `.*` and
anchoring both ends, so `path.search(re) != -1` holds exactly when the whole
path matches, where `*` matches any (possibly empty) substring and every
other pattern character is literal.  (Patterns are assumed to contain no
further regex metacharacters, as in SignalK path globs.) -/
def glob_match : List Char → List Char → Bool
  | [], [] => true
  | [], _ :: _ => false
  | '*' :: ps, [] => glob_match ps []
  | '*' :: ps, c :: s => glob_match ps (c :: s) || glob_match ('*' :: ps) s
  | _ :: _, [] => false
  | p :: ps, c :: s => (p == c) && glob_match ps s
termination_by ps s => (ps.length, s.length)

/-- Full-string glob match on strings (the compiled-regex test). -/
def matches_glob (pattern path : String) : Bool :=
  glob_match pattern.toList path.toList

/-- The predicate returned by `_construct_filter_function` (src/index.js
lines 133-161), applied to a path: in `include` mode accept if some compiled
pattern matches, otherwise (exclude mode) accept if every compiled pattern
fails to match. -/
def construct_filter_function (options : PluginOptions) (path : String) : Bool :=
  if options.filter_list_type == "include" then
    options.filter_list.any (fun pat => matches_glob pat path)
  else
    options.filter_list.all (fun pat => !matches_glob pat path)

/-- The batch mapping `name -> point`, in JavaScript object key order. -/
abbrev Batch := List (String × DataPoint)

/-- Replacement applied by `jsObjectSet` to the entries of an existing key. -/
def replaceKey (k : String) (v : DataPoint) (p : String × DataPoint) : String × DataPoint :=
  if p.1 == k then (k, v) else p

/-- JavaScript object assignment `map[k] = v` on a string-keyed object:
an existing key keeps its position and gets the new value, a fresh key is
appended at the end. -/
def jsObjectSet (m : Batch) (k : String) (v : DataPoint) : Batch :=
  if m.any (fun p => p.1 == k) then
    m.map (replaceKey k v)
  else
    m ++ [(k, v)]

/-- JavaScript object key lookup `m[k]` on the batch model. -/
def alookup (m : Batch) (k : String) : Option DataPoint :=
  (m.find? (fun p => p.1 == k)).map Prod.snd

/-- Fold a list of points into the batch by repeated key assignment
(the inner `points.reduce` of `_add_delta_to_batch`). -/
def set_many (b : Batch) (pts : List DataPoint) : Batch :=
  pts.foldl (fun m p => jsObjectSet m p.name p) b

/-- The accepted, converted points contributed by one update:
`update.values`, filtered by the configured filter, converted to
`{ name, value, timestamp }` with `Date.parse` modelled by `date_parse`. -/
def update_points (options : PluginOptions) (date_parse : String → Int)
    (u : SkUpdate) : List DataPoint :=
  match u.values with
  | none => []
  | some vs =>
      (vs.filter (fun v => construct_filter_function options v.path)).map
        (fun v => ⟨v.path, v.value, date_parse u.timestamp⟩)

/-- One step of the outer `delta.updates.reduce` of `_add_delta_to_batch`:
an update without `values` leaves the accumulator unchanged, otherwise its
accepted points are assigned into the map one by one. -/
def absorb_update (options : PluginOptions) (date_parse : String → Int)
    (b : Batch) (u : SkUpdate) : Batch :=
  match u.values with
  | none => b
  | some _ => set_many b (update_points options date_parse u)

/-- The outer reduce over `delta.updates` (absent updates leave the batch). -/
def absorb_updates (options : PluginOptions) (date_parse : String → Int)
    (updates : Option (List SkUpdate)) (b : Batch) : Batch :=
  match updates with
  | none => b
  | some us => us.foldl (absorb_update options date_parse) b

/-- `_add_delta_to_batch` (src/index.js lines 163-211): deltas whose context
is neither the sentinel `vessels.self` nor `vessels.` ++ selfId return the
batch unmodified, as do deltas without an `updates` field; otherwise the
updates are folded into the batch. -/
def add_delta_to_batch (options : PluginOptions) (self_id : String)
    (date_parse : String → Int) (delta : SkDelta) (b : Batch) : Batch :=
  if delta.context ≠ "vessels.self" ∧ delta.context ≠ ("vessels." ++ self_id) then
    b
  else
    absorb_updates options date_parse delta.updates b

/-- The delta handler produced by `_create_handle_delta` (src/index.js
lines 213-235): the new accumulated state is the result of
`add_to_batch(delta, batch_of_points)`. -/
def handle_delta (options : PluginOptions) (self_id : String)
    (date_parse : String → Int) (delta : SkDelta) (batch_of_points : Batch) : Batch :=
  add_delta_to_batch options self_id date_parse delta batch_of_points

/-- All points contributed by a list of updates, in absorption order. -/
def all_points (options : PluginOptions) (date_parse : String → Int)
    (us : List SkUpdate) : List DataPoint :=
  (us.map (update_points options date_parse)).flatten

/-- Last point with a given name in a list, if any (the value that
last-write-wins accumulation must retain). -/
def find_last (pts : List DataPoint) (k : String) : Option DataPoint :=
  match pts with
  | [] => none
  | p :: rest =>
      match find_last rest k with
      | some q => some q
      | none => if p.name == k then some p else none


/-- `_value_to_type` (src/index.js lines 32-45): the storage value type
inferred from `typeof(point.value)`.  The source compares against the
strings "string", "number" and "bool" in that order and falls back to
VARCHAR (with a logged warning) when none matches. -/
def value_to_type (point : DataPoint) : String :=
  if js_typeof point.value == "string" then "VARCHAR"
  else if js_typeof point.value == "number" then "DOUBLE"
  else if js_typeof point.value == "bool" then "BOOLEAN"
  else "VARCHAR"

/-- A record of the outbound write request (src/index.js lines 95-102). -/
structure WriteRecord where
  MeasureName : String
  MeasureValue : String
  MeasureValueType : String
  Time : String

/-- One step of the composite-expansion map in `_publish_to_timstream`
(src/index.js lines 76-91): an object value expands to one point per
key/value pair with the dotted sub-path, anything else passes through. -/
def expand_point (point : DataPoint) : List DataPoint :=
  match point.value with
  | .obj fields =>
      fields.map (fun v => ⟨point.name ++ "." ++ v.1, v.2, point.timestamp⟩)
  | _ => [point]

/-- The point list `_publish_to_timstream` builds from the batch snapshot
(src/index.js lines 61-93): `Object.values`, the defined-fields filter
(in this model only `point.value` can be undefined; `name` and `timestamp`
are total), composite expansion, and flattening. -/
def publish_points (batch_of_points : Batch) : List DataPoint :=
  let batch := batch_of_points.map Prod.snd
  let defined := batch.filter (fun point => !point.value.is_undefined)
  (defined.map expand_point).flatten

/-- The records of the write request (src/index.js lines 95-102). -/
def publish_records (batch_of_points : Batch) : List WriteRecord :=
  (publish_points batch_of_points).map
    (fun point =>
      ⟨point.name, jsToString point.value, value_to_type point,
        toString point.timestamp⟩)

/-- Scalar in the sense of the spec data model: string, number or boolean. -/
def is_scalar : JsValue → Bool
  | .str _ => true
  | .num _ => true
  | .bool _ => true
  | _ => false

/-- The query response shape consumed by parse_timestream.js: column names
(from `ColumnInfo[i].Name`) and rows of cells, a cell being `ScalarValue`
when present and `none` for a `NullValue` cell. -/
structure TsQueryResult where
  ColumnInfo : List String
  Rows : List (List (Option String))

/-- A value entry of a reconstructed update: `path` is the raw
`measure_name` field (possibly undefined), `value` the resolved value. -/
structure RValue where
  path : Option String
  value : JsValue

/-- A per-row update produced by `_parse` (parse_timestream.js 111-127). -/
structure ParsedUpdate where
  timestamp : String
  values : List RValue

/-- A merged update produced by `_lift_values`, with its synthetic source. -/
structure LiftedUpdate where
  sourceLabel : String
  timestamp : String
  values : List RValue

/-- The reconstructed delta returned by the parse_timestream module. -/
structure RDelta where
  context : String
  updates : List LiftedUpdate

/-- `_get_column_idx` (parse_timestream.js 80-82): lodash `findIndex`,
yielding -1 when no column has the requested name. -/
def get_column_idx (columns : List String) (name : String) : Int :=
  match columns.findIdx? (fun col => col == name) with
  | some i => (i : Int)
  | none => -1

/-- `_get_field` (parse_timestream.js 84-86): `data[i].ScalarValue`.
An out-of-range index is modelled as an undefined field (`none`); the
claims under study only exercise in-range indices. -/
def get_field (i : Int) (data : List (Option String)) : Option String :=
  if i < 0 then none else data.getD i.toNat none

/-- JavaScript truthiness of a field that is either a string or undefined:
undefined and the empty string are falsy, every other string is truthy. -/
def truthyStr : Option String → Bool
  | none => false
  | some s => s != ""

/-- Accumulate the leading decimal digits of a character list, stopping at
the first non-digit (as JavaScript `parseFloat` does). -/
def leading_digits : List Char → Nat → Nat
  | [], acc => acc
  | c :: cs, acc =>
      if c.isDigit then leading_digits cs (acc * 10 + (c.toNat - 48)) else acc

/-- Model of JavaScript `parseFloat` restricted to the decimal strings the
plugin round-trips: an optional leading minus sign followed by digits
(a fractional tail such as ".0" is truncated; all modelled numbers are
integers). -/
def parseFloat (s : String) : Int :=
  match s.toList with
  | '-' :: rest => -(leading_digits rest 0 : Int)
  | l => (leading_digits l 0 : Int)

/-- `_get_value` (parse_timestream.js 93-102): read the double and varchar
fields; if the double field (a raw string) is truthy, parse it as a number,
otherwise return the varchar field as-is (a string, or undefined). -/
def get_value (columns : List String) (data : List (Option String)) : JsValue :=
  let value_double := get_field (get_column_idx columns "measure_value::double") data
  let value_varchar := get_field (get_column_idx columns "measure_value::varchar") data
  if truthyStr value_double then
    .num (parseFloat (value_double.getD ""))
  else
    match value_varchar with
    | some s => .str s
    | none => .undefined

/-- `_parse` (parse_timestream.js 111-127): one update per row, carrying the
measure name, the resolved value, and the row time rendered as an ISO
timestamp.  `iso` models `s => new Date(s).toISOString()`, an external
runtime facility; the claims hold for every such function. -/
def parse_row (iso : String → String) (columns : List String)
    (data : List (Option String)) : ParsedUpdate :=
  let measure_name := get_field (get_column_idx columns "measure_name") data
  let timestamp := iso ((get_field (get_column_idx columns "time") data).getD "")
  ⟨timestamp, [⟨measure_name, get_value columns data⟩]⟩

/-- Key list of lodash `_.groupBy` followed by `Object.entries`: distinct
timestamps in order of first occurrence. -/
def group_keys (ts : List String) : List String :=
  ts.foldl (fun acc t => if acc.contains t then acc else acc ++ [t]) []

/-- `_.groupBy(parsed_updates, u => u.timestamp)` then `Object.entries`:
one entry per distinct timestamp, with the updates carrying it, in order. -/
def group_by_timestamp (us : List ParsedUpdate) : List (String × List ParsedUpdate) :=
  (group_keys (us.map ParsedUpdate.timestamp)).map
    (fun t => (t, us.filter (fun u => u.timestamp == t)))

/-- `_lift_values` (parse_timestream.js 154-192).  The latitude/longitude
recombination is guarded on the latitude only
(`!isUndefined(latitude) && !isUndefined(latitude.value)`); once inside the
guard the code evaluates `longitude.value` (first in the trace call), which
throws a TypeError when no longitude entry was found — modelled as
`Except.error`. -/
def lift_values (entry : String × List ParsedUpdate) : Except String LiftedUpdate :=
  let flattened_values := (entry.2.map ParsedUpdate.values).flatten
  match flattened_values.find? (fun v => v.path == some "navigation.position.latitude") with
  | none => .ok ⟨"signalk-to-timestream", entry.1, flattened_values⟩
  | some latitude =>
      if latitude.value.is_undefined then
        .ok ⟨"signalk-to-timestream", entry.1, flattened_values⟩
      else
        match flattened_values.find? (fun v => v.path == some "navigation.position.longitude") with
        | none => .error "TypeError: cannot read property value of undefined"
        | some longitude =>
            let remaining :=
              (flattened_values.filter
                  (fun v => v.path != some "navigation.position.latitude")).filter
                (fun v => v.path != some "navigation.position.longitude")
            .ok ⟨"signalk-to-timestream", entry.1,
              remaining ++
                [⟨some "navigation.position",
                  .obj [("latitude", latitude.value), ("longitude", longitude.value)]⟩]⟩

/-- The `_.map(Object.entries(...), u => _lift_values(u))` step: lifts are
evaluated left to right and the first thrown TypeError aborts the map. -/
def map_lift : List (String × List ParsedUpdate) → Except String (List LiftedUpdate)
  | [] => .ok []
  | e :: rest =>
      match lift_values e with
      | .error err => .error err
      | .ok u =>
          match map_lift rest with
          | .error err => .error err
          | .ok us => .ok (u :: us)

/-- The parse_timestream module export (parse_timestream.js 195-205):
parse each row, group by timestamp, lift each group, and wrap the updates
in a delta for `vessels.<self_id>`. -/
def parse_timestream (iso : String → String) (self_id : String)
    (result : TsQueryResult) : Except String RDelta :=
  let parsed_updates := result.Rows.map (fun row => parse_row iso result.ColumnInfo row)
  match map_lift (group_by_timestamp parsed_updates) with
  | .error e => .error e
  | .ok updates => .ok ⟨"vessels." ++ self_id, updates⟩

/-- The column layout of the storage service's query response for this
table, as documented in the sample response at the top of
parse_timestream.js. -/
def ts_columns : List String :=
  ["context", "measure_value::double", "measure_value::varchar", "measure_name", "time"]

/-- Modelled storage round trip at the external interface (spec section 6):
a written record comes back as one flat query row in the `ts_columns`
layout, its measure value in the column matching its declared type. -/
def record_to_row (self_id : String) (r : WriteRecord) : List (Option String) :=
  [some self_id,
   if r.MeasureValueType == "DOUBLE" then some r.MeasureValue else none,
   if r.MeasureValueType == "VARCHAR" then some r.MeasureValue else none,
   some r.MeasureName,
   some r.Time]

/-- `_query` resolution (src/index.js 299-307): a failed query rejects; a
successful one resolves with the singleton list `[delta]` of the parsed
response. -/
def query_to_deltas (iso : String → String) (self_id : String)
    (outcome : Except String TsQueryResult) : Except String (List RDelta) :=
  match outcome with
  | .error e => .error e
  | .ok data =>
      match parse_timestream iso self_id data with
      | .error e => .error e
      | .ok delta => .ok [delta]

/-- JavaScript `Array.prototype.reduce` with no initial value: throws a
TypeError on an empty array (modelled as `none`), otherwise folds from the
first element. -/
def reduce_sum : List Nat → Option Nat
  | [] => none
  | c :: cs => some (cs.foldl (· + ·) c)

/-- The end of the window queried by `_has_any_data` (src/index.js 352-373):
ten seconds after the start instant, in epoch milliseconds.  The window is
half-open because `_query` renders `time >= start AND time < end`. -/
def has_any_data_window (startTime : Int) : Int × Int :=
  (startTime, startTime + 1000 * 10)

/-- The boolean reported by `_has_any_data` given the outcome of its query:
on rejection the catch handler reports false; on success the update counts
are summed by an initial-value-less reduce (whose TypeError on an empty
array is caught by the same catch handler, reporting false) and the report
is whether the total is positive. -/
def has_any_data (outcome : Except String (List RDelta)) : Bool :=
  match outcome with
  | .error _ => false
  | .ok deltas =>
      match reduce_sum (deltas.map (fun delta => delta.updates.length)) with
      | none => false
      | some total_updates => decide (total_updates > 0)

theorem replaceKey_of_eq {a : String × DataPoint} {k : String} (v : DataPoint)
    (h : a.1 = k) : replaceKey k v a = (k, v) := by
  simp [replaceKey, h]

theorem replaceKey_of_ne {a : String × DataPoint} {k : String} (v : DataPoint)
    (h : ¬a.1 = k) : replaceKey k v a = a := by
  simp [replaceKey, h]

theorem find_map_replaceKey_ne (t : Batch) (k : String) (v : DataPoint) (k' : String)
    (hne : k' ≠ k) :
    (t.map (replaceKey k v)).find? (fun p => p.1 == k') =
      t.find? (fun p => p.1 == k') := by
  induction t with
  | nil => rfl
  | cons a rest ih =>
      by_cases ha : a.1 = k
      · rw [List.map_cons, replaceKey_of_eq v ha,
          List.find?_cons_of_neg _ (by simp [Ne.symm hne]),
          List.find?_cons_of_neg _ (by simp [ha, Ne.symm hne])]
        exact ih
      · rw [List.map_cons, replaceKey_of_ne v ha]
        by_cases ha' : a.1 = k'
        · rw [List.find?_cons_of_pos _ (by simp [ha']),
            List.find?_cons_of_pos _ (by simp [ha'])]
        · rw [List.find?_cons_of_neg _ (by simp [ha']),
            List.find?_cons_of_neg _ (by simp [ha'])]
          exact ih

theorem find_map_replaceKey_self (m : Batch) (k : String) (v : DataPoint)
    (h : m.any (fun p => p.1 == k) = true) :
    (m.map (replaceKey k v)).find? (fun p => p.1 == k) = some (k, v) := by
  induction m with
  | nil => simp at h
  | cons a rest ih =>
      by_cases ha : a.1 = k
      · rw [List.map_cons, replaceKey_of_eq v ha,
          List.find?_cons_of_pos _ (by simp)]
      · rw [List.map_cons, replaceKey_of_ne v ha,
          List.find?_cons_of_neg _ (by simp [ha])]
        exact ih (by simpa [ha] using h)

theorem alookup_jsObjectSet (m : Batch) (k : String) (v : DataPoint) (k' : String) :
    alookup (jsObjectSet m k v) k' = if k' = k then some v else alookup m k' := by
  by_cases hany : m.any (fun p => p.1 == k) = true
  · by_cases hk : k' = k
    · subst hk
      simp only [jsObjectSet, hany, if_true, alookup]
      rw [find_map_replaceKey_self m k' v hany]
      rfl
    · simp only [jsObjectSet, hany, if_true, alookup, if_neg hk]
      rw [find_map_replaceKey_ne m k v k' hk]
  · have hfalse : m.any (fun p => p.1 == k) = false := by
      cases h2 : m.any (fun p => p.1 == k) with
      | true => exact absurd h2 hany
      | false => rfl
    have hnone : m.find? (fun p => p.1 == k) = none := by
      refine List.find?_eq_none.mpr (fun x hx => ?_)
      exact List.any_eq_false.mp hfalse x hx
    simp only [jsObjectSet, hany, if_false, alookup, Bool.false_eq_true]
    rw [List.find?_append]
    by_cases hk : k' = k
    · subst hk
      rw [hnone]
      simp
    · have h1 : List.find? (fun p => p.1 == k') [(k, v)] = none := by
        simp [Ne.symm hk]
      rw [h1, if_neg hk, Option.or_none]

theorem alookup_set_many (pts : List DataPoint) (b : Batch) (k : String) :
    alookup (set_many b pts) k = (find_last pts k).or (alookup b k) := by
  induction pts generalizing b with
  | nil => simp [set_many, find_last]
  | cons p rest ih =>
      have h1 : set_many b (p :: rest) = set_many (jsObjectSet b p.name p) rest := rfl
      rw [h1, ih]
      cases hfl : find_last rest k with
      | some q => simp [find_last, hfl]
      | none =>
          rw [alookup_jsObjectSet]
          by_cases hpk : p.name = k
          · simp [find_last, hfl, hpk]
          · simp [find_last, hfl, hpk, Ne.symm hpk]

theorem keys_jsObjectSet (m : Batch) (k : String) (v : DataPoint) :
    (jsObjectSet m k v).map Prod.fst =
      if m.any (fun p => p.1 == k) then m.map Prod.fst else m.map Prod.fst ++ [k] := by
  by_cases hany : m.any (fun p => p.1 == k) = true
  · simp only [jsObjectSet, hany, if_true, List.map_map]
    apply List.map_congr_left
    intro p _
    by_cases hp : p.1 = k
    · simp [Function.comp, replaceKey, hp]
    · simp [Function.comp, replaceKey, hp]
  · simp [jsObjectSet, hany]

theorem nodup_keys_jsObjectSet (m : Batch) (k : String) (v : DataPoint)
    (h : (m.map Prod.fst).Nodup) : ((jsObjectSet m k v).map Prod.fst).Nodup := by
  rw [keys_jsObjectSet]
  by_cases hany : m.any (fun p => p.1 == k) = true
  · simpa [hany] using h
  · have hfalse : m.any (fun p => p.1 == k) = false := by
      cases h2 : m.any (fun p => p.1 == k) with
      | true => exact absurd h2 hany
      | false => rfl
    have hk : k ∉ m.map Prod.fst := by
      intro hmem
      obtain ⟨p, hp, hpk⟩ := List.mem_map.mp hmem
      exact absurd (by simp [hpk]) (List.any_eq_false.mp hfalse p hp)
    simp [hany, List.nodup_append, h, hk]

theorem nodup_keys_set_many (pts : List DataPoint) (b : Batch)
    (h : (b.map Prod.fst).Nodup) : ((set_many b pts).map Prod.fst).Nodup := by
  induction pts generalizing b with
  | nil => simpa [set_many] using h
  | cons p rest ih =>
      show ((set_many (jsObjectSet b p.name p) rest).map Prod.fst).Nodup
      exact ih _ (nodup_keys_jsObjectSet _ _ _ h)

theorem set_many_append (b : Batch) (xs ys : List DataPoint) :
    set_many b (xs ++ ys) = set_many (set_many b xs) ys := by
  simp [set_many, List.foldl_append]

theorem all_points_append (options : PluginOptions) (date_parse : String → Int)
    (xs ys : List SkUpdate) :
    all_points options date_parse (xs ++ ys) =
      all_points options date_parse xs ++ all_points options date_parse ys := by
  simp [all_points]

theorem absorb_update_eq_set_many (options : PluginOptions) (date_parse : String → Int)
    (b : Batch) (u : SkUpdate) :
    absorb_update options date_parse b u =
      set_many b (update_points options date_parse u) := by
  cases h : u.values <;> simp [absorb_update, update_points, h, set_many]

theorem absorb_updates_eq_set_many (options : PluginOptions) (date_parse : String → Int)
    (us : List SkUpdate) (b : Batch) :
    us.foldl (absorb_update options date_parse) b =
      set_many b (all_points options date_parse us) := by
  induction us generalizing b with
  | nil => simp [all_points, set_many]
  | cons u rest ih =>
      rw [List.foldl_cons, ih, absorb_update_eq_set_many]
      have h2 : all_points options date_parse (u :: rest) =
          update_points options date_parse u ++ all_points options date_parse rest := by
        simp [all_points]
      rw [h2, set_many_append]

theorem add_delta_self_eq (options : PluginOptions) (self_id : String)
    (date_parse : String → Int) (ctx : String)
    (hctx : ctx = "vessels.self" ∨ ctx = "vessels." ++ self_id)
    (us : List SkUpdate) (b : Batch) :
    add_delta_to_batch options self_id date_parse ⟨ctx, some us⟩ b =
      set_many b (all_points options date_parse us) := by
  have hguard : ¬(ctx ≠ "vessels.self" ∧ ctx ≠ "vessels." ++ self_id) := by
    rcases hctx with h | h <;> simp [h]
  simp only [add_delta_to_batch, hguard, if_false, absorb_updates]
  exact absorb_updates_eq_set_many options date_parse us b

theorem chunks_fold_eq (options : PluginOptions) (self_id : String)
    (date_parse : String → Int) (ctx : String)
    (hctx : ctx = "vessels.self" ∨ ctx = "vessels." ++ self_id)
    (chunks : List (List SkUpdate)) (b : Batch) :
    chunks.foldl
        (fun acc c => add_delta_to_batch options self_id date_parse ⟨ctx, some c⟩ acc) b =
      set_many b (all_points options date_parse chunks.flatten) := by
  induction chunks generalizing b with
  | nil => simp [all_points, set_many]
  | cons c rest ih =>
      rw [List.foldl_cons, add_delta_self_eq options self_id date_parse ctx hctx, ih]
      have h2 : (c :: rest).flatten = c ++ rest.flatten := by simp
      rw [h2, all_points_append, set_many_append]

/-- Claim C1 (code bug): the claimed inference is string gives VARCHAR,
number DOUBLE, boolean BOOLEAN, anything else VARCHAR with a warning.  The
code compares `typeof(value)` against the string "bool", which `typeof`
never produces (booleans yield "boolean"), so a boolean-valued point falls
through to the warning branch and is typed VARCHAR; no point is ever typed
BOOLEAN. -/
theorem value_to_type_boolean_fallback :
    value_to_type ⟨"navigation.lights", .bool true, 0⟩ = "VARCHAR" ∧
    ∀ point : DataPoint, value_to_type point ≠ "BOOLEAN" := by
  refine ⟨rfl, fun point => ?_⟩
  cases h : point.value <;> simp [value_to_type, js_typeof, h]

/-- Claim C7: an exclude filter with an empty pattern list accepts every
path and an include filter with an empty pattern list rejects every path;
in general include mode accepts a path exactly when some compiled pattern
fully matches it and exclude mode accepts it exactly when no compiled
pattern fully matches it. -/
theorem filter_mode_semantics (pats : List String) (path : String) :
    construct_filter_function ⟨[], "exclude"⟩ path = true ∧
    construct_filter_function ⟨[], "include"⟩ path = false ∧
    construct_filter_function ⟨pats, "include"⟩ path =
      pats.any (fun pat => matches_glob pat path) ∧
    construct_filter_function ⟨pats, "exclude"⟩ path =
      pats.all (fun pat => !matches_glob pat path) :=
  ⟨rfl, rfl, rfl, rfl⟩

/-- Claim C8: a delta's updates are absorbed only when its context is the
sentinel `vessels.self` or the fully-qualified `vessels.` ++ self-id; any
other context leaves the batch exactly as it was. -/
theorem add_delta_context_check (options : PluginOptions) (self_id : String)
    (date_parse : String → Int) (delta : SkDelta) (b : Batch) :
    (delta.context ≠ "vessels.self" → delta.context ≠ "vessels." ++ self_id →
      add_delta_to_batch options self_id date_parse delta b = b) ∧
    (delta.context = "vessels.self" ∨ delta.context = "vessels." ++ self_id →
      add_delta_to_batch options self_id date_parse delta b =
        absorb_updates options date_parse delta.updates b) := by
  constructor
  · intro h1 h2
    simp [add_delta_to_batch, h1, h2]
  · intro h
    have hguard : ¬(delta.context ≠ "vessels.self" ∧
        delta.context ≠ "vessels." ++ self_id) := by
      rcases h with h | h <;> simp [h]
    simp [add_delta_to_batch, hguard]

/-- Witness for the context check at a concrete foreign-context delta. -/
theorem add_delta_context_check_witness :
    add_delta_to_batch ⟨[], "exclude"⟩ "self-id" (fun _ => 0)
        ⟨"vessels.other", some [⟨"t0", some [⟨"a", .num 1⟩]⟩]⟩ [] = [] :=
  (add_delta_context_check ⟨[], "exclude"⟩ "self-id" (fun _ => 0)
      ⟨"vessels.other", some [⟨"t0", some [⟨"a", .num 1⟩]⟩]⟩ []).1
    (by decide) (by decide)

/-- Claim C10: a delta rejected by the guards (context not the self
identity, or no updates field) leaves the accumulated batch exactly as it
was; the handler's state update keeps every accumulated point and adds
none. -/
theorem rejected_delta_preserves_batch (options : PluginOptions) (self_id : String)
    (date_parse : String → Int) (delta : SkDelta) (batch_of_points : Batch)
    (h : (delta.context ≠ "vessels.self" ∧ delta.context ≠ "vessels." ++ self_id) ∨
        delta.updates = none) :
    handle_delta options self_id date_parse delta batch_of_points = batch_of_points := by
  rcases h with ⟨h1, h2⟩ | h
  · simp [handle_delta, add_delta_to_batch, h1, h2]
  · by_cases hg : delta.context ≠ "vessels.self" ∧ delta.context ≠ "vessels." ++ self_id
    · simp [handle_delta, add_delta_to_batch, hg]
    · simp [handle_delta, add_delta_to_batch, hg, absorb_updates, h]

/-- Witness: a delta without an updates field preserves a concrete batch. -/
theorem rejected_delta_preserves_batch_witness :
    handle_delta ⟨[], "exclude"⟩ "self-id" (fun _ => 0) ⟨"vessels.self", none⟩
        [("a", ⟨"a", .num 1, 5⟩)] = [("a", ⟨"a", .num 1, 5⟩)] :=
  rejected_delta_preserves_batch ⟨[], "exclude"⟩ "self-id" (fun _ => 0)
    ⟨"vessels.self", none⟩ [("a", ⟨"a", .num 1, 5⟩)] (Or.inr rfl)

/-- Claim C3: absorbing a sequence of self-context updates into one interval
yields a batch with exactly one point per distinct accepted path (its key
list has no duplicates), whose entry for each path is the last accepted
point carrying that path; and the final batch is the same whether the
updates arrive one delta at a time or grouped into larger deltas, in the
same order. -/
theorem batch_last_write_wins (options : PluginOptions) (self_id : String)
    (date_parse : String → Int) (ctx : String) (us : List SkUpdate)
    (hctx : ctx = "vessels.self" ∨ ctx = "vessels." ++ self_id) :
    ((add_delta_to_batch options self_id date_parse ⟨ctx, some us⟩ []).map Prod.fst).Nodup ∧
    (∀ k, alookup (add_delta_to_batch options self_id date_parse ⟨ctx, some us⟩ []) k =
        find_last (all_points options date_parse us) k) ∧
    (∀ chunks : List (List SkUpdate), chunks.flatten = us →
        chunks.foldl
            (fun acc c => add_delta_to_batch options self_id date_parse ⟨ctx, some c⟩ acc)
            [] =
          add_delta_to_batch options self_id date_parse ⟨ctx, some us⟩ []) := by
  rw [add_delta_self_eq options self_id date_parse ctx hctx]
  refine ⟨nodup_keys_set_many _ _ (by simp), fun k => ?_, fun chunks hch => ?_⟩
  · rw [alookup_set_many]
    have h0 : alookup [] k = none := rfl
    rw [h0, Option.or_none]
  · rw [chunks_fold_eq options self_id date_parse ctx hctx, hch]

/-- Witness: the later of two values for one path is the one retained, at a
concrete pair of updates. -/
theorem batch_last_write_wins_witness :
    alookup (add_delta_to_batch ⟨[], "exclude"⟩ "id" (fun _ => 0)
        ⟨"vessels.self",
          some [⟨"t0", some [⟨"a", .num 1⟩]⟩, ⟨"t1", some [⟨"a", .num 2⟩]⟩]⟩ []) "a" =
      find_last (all_points ⟨[], "exclude"⟩ (fun _ => 0)
        [⟨"t0", some [⟨"a", .num 1⟩]⟩, ⟨"t1", some [⟨"a", .num 2⟩]⟩]) "a" :=
  (batch_last_write_wins ⟨[], "exclude"⟩ "id" (fun _ => 0) "vessels.self"
      [⟨"t0", some [⟨"a", .num 1⟩]⟩, ⟨"t1", some [⟨"a", .num 2⟩]⟩] (Or.inl rfl)).2.1 "a"

/-- Claim C2 counterexample: a reconstruction group holding a latitude value
(with a defined value) but no longitude value does not succeed; evaluating
`_lift_values` on it raises a TypeError (the code reads `longitude.value`
with `longitude` undefined) instead of producing a combined value. -/
theorem lift_latitude_only_errors :
    lift_values ("t0", [⟨"t0", [⟨some "navigation.position.latitude", .num 10⟩]⟩]) =
      .error "TypeError: cannot read property value of undefined" := rfl

/-- Claim C2 amended: when a group contains a latitude entry with a defined
value, reconstruction raises a TypeError if no longitude entry is present
in the group; only when a longitude entry is present (its value possibly
undefined) does it produce the single combined `navigation.position`
value. -/
theorem lift_latitude_guard (entry : String × List ParsedUpdate) (lat : RValue)
    (hlat : ((entry.2.map ParsedUpdate.values).flatten).find?
        (fun v => v.path == some "navigation.position.latitude") = some lat)
    (hdef : lat.value.is_undefined = false) :
    (((entry.2.map ParsedUpdate.values).flatten).find?
        (fun v => v.path == some "navigation.position.longitude") = none →
      lift_values entry = .error "TypeError: cannot read property value of undefined") ∧
    (∀ lon, ((entry.2.map ParsedUpdate.values).flatten).find?
        (fun v => v.path == some "navigation.position.longitude") = some lon →
      lift_values entry = .ok ⟨"signalk-to-timestream", entry.1,
        (((entry.2.map ParsedUpdate.values).flatten).filter
            (fun v => v.path != some "navigation.position.latitude")).filter
          (fun v => v.path != some "navigation.position.longitude") ++
        [⟨some "navigation.position",
          .obj [("latitude", lat.value), ("longitude", lon.value)]⟩]⟩) := by
  constructor
  · intro hlon
    simp [lift_values, hlat, hdef, hlon]
  · intro lon hlon
    simp [lift_values, hlat, hdef, hlon]

/-- Witness for the amended latitude guard at a concrete group. -/
theorem lift_latitude_guard_witness :
    lift_values ("tw", [⟨"tw", [⟨some "navigation.position.latitude", .num 7⟩]⟩]) =
      .error "TypeError: cannot read property value of undefined" :=
  (lift_latitude_guard ("tw", [⟨"tw", [⟨some "navigation.position.latitude", .num 7⟩]⟩])
      ⟨some "navigation.position.latitude", .num 7⟩ rfl rfl).1 rfl

/-- Claim C5 counterexample: absorbing a composite (object-valued) reading
stores the object itself in the batch, so the batch does hold an entry
whose value is an object; expansion has not happened on entry. -/
theorem batch_holds_object_value :
    alookup (add_delta_to_batch ⟨[], "exclude"⟩ "id0" (fun _ => 0)
        ⟨"vessels.self",
          some [⟨"t0", some [⟨"environment.current",
            .obj [("setTrue", .num 2), ("drift", .num 3)]⟩]⟩]⟩ [])
        "environment.current" =
      some ⟨"environment.current", .obj [("setTrue", .num 2), ("drift", .num 3)], 0⟩ ∧
    js_typeof (JsValue.obj [("setTrue", .num 2), ("drift", .num 3)]) = "object" :=
  ⟨rfl, rfl⟩

/-- Claim C5 amended: composite readings enter the batch unexpanded;
expansion into one point per sub-field, keyed by the dotted sub-path,
happens in the publisher, so that whenever every object-valued batch entry
has scalar sub-fields, every point of the publisher's expanded list (from
which the write records are built) carries a scalar value. -/
theorem publish_expansion_scalar (batch_of_points : Batch)
    (h : ∀ kp ∈ batch_of_points, ∀ fields, (kp.2).value = JsValue.obj fields →
        ∀ f ∈ fields, is_scalar f.2 = true) :
    ∀ q ∈ publish_points batch_of_points, is_scalar q.value = true := by
  intro q hq
  simp only [publish_points, List.mem_flatten, List.mem_map, List.mem_filter] at hq
  obtain ⟨l, ⟨p, ⟨⟨kp, hkp, rfl⟩, hpdef⟩, rfl⟩, hql⟩ := hq
  cases hv : (kp.2).value with
  | obj fields =>
      simp only [expand_point, hv] at hql
      obtain ⟨f, hf, rfl⟩ := List.mem_map.mp hql
      exact h kp hkp fields hv f hf
  | str s =>
      simp only [expand_point, hv, List.mem_singleton] at hql
      subst hql
      simp [hv, is_scalar]
  | num n =>
      simp only [expand_point, hv, List.mem_singleton] at hql
      subst hql
      simp [hv, is_scalar]
  | bool b =>
      simp only [expand_point, hv, List.mem_singleton] at hql
      subst hql
      simp [hv, is_scalar]
  | undefined =>
      rw [hv] at hpdef
      simp [JsValue.is_undefined] at hpdef

/-- Witness: the expanded point of a one-level composite carries a scalar
value, at a concrete batch. -/
theorem publish_expansion_scalar_witness :
    is_scalar (DataPoint.mk "environment.current.setTrue" (.num 2) 0).value = true :=
  publish_expansion_scalar
    [("environment.current",
        ⟨"environment.current", .obj [("setTrue", .num 2), ("drift", .num 3)], 0⟩)]
    (by
      intro kp hkp fields hf f hff
      have hkpe : kp = ("environment.current",
          ⟨"environment.current", .obj [("setTrue", .num 2), ("drift", .num 3)], 0⟩) :=
        List.mem_singleton.mp hkp
      subst hkpe
      simp only at hf
      injection hf with hfields
      subst hfields
      fin_cases hff <;> rfl)
    ⟨"environment.current.setTrue", .num 2, 0⟩ (List.mem_cons_self _ _)

/-- Claim C6 counterexample: a row whose double column holds the stored
numeric zero "0.0" resolves from the double field (the truthiness test is
applied to the raw column string, and "0.0" is a non-empty, truthy string),
not from the string column: a numeric zero reading is distinguishable from
an absent double value. -/
theorem get_value_zero_prefers_double :
    get_value ts_columns [some "ctx", some "0.0", some "fallback", some "m", some "t"] =
      .num 0 ∧
    get_value ts_columns [some "ctx", some "0.0", some "fallback", some "m", some "t"] ≠
      .str "fallback" := by
  have hz : get_value ts_columns
      [some "ctx", some "0.0", some "fallback", some "m", some "t"] = .num 0 := by rfl
  refine ⟨hz, ?_⟩
  intro hcontra
  rw [hz] at hcontra
  exact JsValue.noConfusion hcontra

/-- Claim C6 amended: `_get_value` applies the truthiness test to the raw
double-column string: when that field is present and non-empty (as every
stored double, zero included, is) the resolved value is the parsed double;
the varchar field is used only when the double field is absent or the empty
string. -/
theorem get_value_string_truthiness (columns : List String)
    (data : List (Option String)) :
    (∀ s, get_field (get_column_idx columns "measure_value::double") data = some s →
      s ≠ "" → get_value columns data = .num (parseFloat s)) ∧
    (truthyStr (get_field (get_column_idx columns "measure_value::double") data) = false →
      get_value columns data =
        match get_field (get_column_idx columns "measure_value::varchar") data with
        | some t => .str t
        | none => .undefined) := by
  constructor
  · intro s hs hne
    simp [get_value, hs, truthyStr, hne]
  · intro hfalsy
    simp [get_value, hfalsy]

/-- Witness: a concrete zero row resolves to the parsed double. -/
theorem get_value_string_truthiness_witness :
    get_value ts_columns [some "c", some "0.0", some "fb", some "m", some "t"] =
      .num (parseFloat "0.0") :=
  (get_value_string_truthiness ts_columns
      [some "c", some "0.0", some "fb", some "m", some "t"]).1 "0.0" rfl (by decide)

/-- Claim C9: the occupancy check queries the half-open ten-second window
from the start instant, reports false on a failed query, false when the
query returns zero rows (the reconstructed delta has no updates), and the
report on a successfully parsed response is exactly whether the
reconstructed delta contains at least one update. -/
theorem has_any_data_reports (iso : String → String) (self_id : String)
    (e : String) (data : TsQueryResult) (startTime : Int) :
    has_any_data (.error e) = false ∧
    (data.Rows = [] → has_any_data (query_to_deltas iso self_id (.ok data)) = false) ∧
    (∀ delta, parse_timestream iso self_id data = .ok delta →
      has_any_data (query_to_deltas iso self_id (.ok data)) =
        decide (0 < delta.updates.length)) ∧
    has_any_data_window startTime = (startTime, startTime + 10000) := by
  refine ⟨rfl, ?_, ?_, rfl⟩
  · intro hrows
    have hparse : parse_timestream iso self_id data = .ok ⟨"vessels." ++ self_id, []⟩ := by
      simp [parse_timestream, hrows, group_by_timestamp, group_keys, map_lift]
    simp [query_to_deltas, hparse, has_any_data, reduce_sum]
  · intro delta hparse
    simp [query_to_deltas, hparse, has_any_data, reduce_sum]

/-- Witness: an empty response reports no data, at concrete inputs. -/
theorem has_any_data_reports_witness :
    has_any_data (query_to_deltas (fun s => s) "id" (.ok ⟨ts_columns, []⟩)) = false :=
  (has_any_data_reports (fun s => s) "id" "err" ⟨ts_columns, []⟩ 0).2.1 rfl

/-- Claim C4: publishing a batch holding `navigation.position.latitude = 10`
and `navigation.position.longitude = 20` at one timestamp and then
reconstructing from the flat rows that publication produces (one row per
scalar point with measure name, value and time) yields one update whose
single value is the combined `navigation.position` object
`latitude 10, longitude 20`; `iso` is the runtime's timestamp rendering. -/
theorem round_trip_position (iso : String → String) (self_id : String) :
    parse_timestream iso self_id
      ⟨ts_columns,
        (publish_records
            [("navigation.position.latitude",
                ⟨"navigation.position.latitude", .num 10, 1000⟩),
              ("navigation.position.longitude",
                ⟨"navigation.position.longitude", .num 20, 1000⟩)]).map
          (record_to_row self_id)⟩ =
      .ok ⟨"vessels." ++ self_id,
        [⟨"signalk-to-timestream", iso "1000",
          [⟨some "navigation.position",
            .obj [("latitude", .num 10), ("longitude", .num 20)]⟩]⟩]⟩ := by
  have h1 : (publish_records
      [("navigation.position.latitude",
          ⟨"navigation.position.latitude", .num 10, 1000⟩),
        ("navigation.position.longitude",
          ⟨"navigation.position.longitude", .num 20, 1000⟩)]).map
      (record_to_row self_id) =
      [[some self_id, some "10", none, some "navigation.position.latitude", some "1000"],
       [some self_id, some "20", none, some "navigation.position.longitude", some "1000"]] := by
    rfl
  rw [h1]
  have h2 : ∀ rows : List (List (Option String)),
      parse_timestream iso self_id ⟨ts_columns, rows⟩ =
        match map_lift (group_by_timestamp (rows.map (parse_row iso ts_columns))) with
        | .error err => .error err
        | .ok updates => .ok ⟨"vessels." ++ self_id, updates⟩ := fun _ => rfl
  rw [h2]
  have h3 :
      ([[some self_id, some "10", none, some "navigation.position.latitude", some "1000"],
        [some self_id, some "20", none, some "navigation.position.longitude", some "1000"]]).map
        (parse_row iso ts_columns) =
      [⟨iso "1000", [⟨some "navigation.position.latitude", .num 10⟩]⟩,
       ⟨iso "1000", [⟨some "navigation.position.longitude", .num 20⟩]⟩] := by
    rfl
  rw [h3]
  generalize iso "1000" = t
  have h4 : group_by_timestamp
      [⟨t, [⟨some "navigation.position.latitude", .num 10⟩]⟩,
       ⟨t, [⟨some "navigation.position.longitude", .num 20⟩]⟩] =
      [(t, [⟨t, [⟨some "navigation.position.latitude", .num 10⟩]⟩,
            ⟨t, [⟨some "navigation.position.longitude", .num 20⟩]⟩])] := by
    simp [group_by_timestamp, group_keys]
  rw [h4]
  have h5 : lift_values
      (t, [⟨t, [⟨some "navigation.position.latitude", .num 10⟩]⟩,
           ⟨t, [⟨some "navigation.position.longitude", .num 20⟩]⟩]) =
      .ok ⟨"signalk-to-timestream", t,
        [⟨some "navigation.position",
          .obj [("latitude", .num 10), ("longitude", .num 20)]⟩]⟩ := by
    rfl
  simp [map_lift, h5]
